import Mathlib

/-!
Verification of the trading_app simulation and risk-control core.

The Python source is shallowly embedded in Lean 4:
* Python floats are modelled as exact rationals (the spec reasons about the
  arithmetic exactly, e.g. fill price 150.075 and cash 9099.55);
* Python ints are modelled as integers (Python int division truncates toward
  zero, captured by ratTrunc below);
* datetime values are modelled at day granularity (an integer day number) for
  the risk manager, whose only uses of timestamps are calendar-date equality
  and elapsed-day differences, and as an Eastern-Time minute-of-day rational
  for the strategy engine, whose only uses are time-of-day comparisons;
* a Python statement that can raise ZeroDivisionError is modelled in Except
  where the exception behaviour matters (RiskManager.update_drawdown and its
  caller validate_trade); elsewhere total rational division is used and the
  theorems carry positivity hypotheses that keep the model on the
  exception-free executions of the source;
* reason strings are modelled by inductive reason codes, one constructor per
  distinct message produced by the source.
-/

/-- Truncation toward zero of a rational, the semantics of Python int(x). -/
def ratTrunc (q : ℚ) : ℤ :=
  if 0 ≤ q then ⌊q⌋ else -⌊-q⌋

/-- Python abs on a rational, written so that the kernel can evaluate it. -/
def ratAbs (q : ℚ) : ℚ :=
  if q < 0 then -q else q

/-- Python min on rationals, written so that the kernel can evaluate it. -/
def ratMin (a b : ℚ) : ℚ :=
  if a ≤ b then a else b

deriving instance DecidableEq for Except

/-- Reasons passed to RiskManager.halt_trading.  The source stores an
arbitrary string; the two strings produced inside validate_trade get their
own constructors and any externally supplied reason is modelled by manual. -/
inductive HaltReason where
  | dailyLossLimitExceeded
  | maxDrawdownExceeded
  | manual (tag : ℕ)
deriving DecidableEq

/-- Rejection reasons returned by RiskManager.validate_trade, one constructor
per distinct message in the source.  tradingHalted carries the stored halt
reason interpolated into the message. -/
inductive RejectReason where
  | tradingHalted (r : Option HaltReason)
  | dailyLossExceeded
  | weeklyLossExceeded
  | maxDrawdownExceeded
  | positionLimitsExceeded
  | positionSizeExceedsLimit
  | insufficientCapital
deriving DecidableEq

/-- RiskLimits dataclass (risk_manager.py). -/
structure RiskLimits where
  max_position_size : ℚ
  max_positions : ℕ
  max_sector_positions : ℕ
  daily_loss_limit : ℚ
  weekly_loss_limit : ℚ
  max_drawdown_pct : ℚ
  position_size_pct : ℚ
deriving DecidableEq

/-- The dataclass field defaults of RiskLimits. -/
def defaultRiskLimits : RiskLimits where
  max_position_size := 1000
  max_positions := 5
  max_sector_positions := 2
  daily_loss_limit := 100
  weekly_loss_limit := 300
  max_drawdown_pct := 15
  position_size_pct := 20

/-- The state of a RiskManager object (risk_manager.py).  Timestamps are day
numbers; current_date and week_start_date are None until first observed. -/
structure RiskManager where
  limits : RiskLimits
  daily_pnl : ℚ
  weekly_pnl : ℚ
  current_date : Option ℤ
  week_start_date : Option ℤ
  peak_equity : ℚ
  current_drawdown_pct : ℚ
  trading_halted : Bool
  halt_reason : Option HaltReason
deriving DecidableEq

/-- RiskManager.__init__. -/
def initRiskManager (limits : RiskLimits) : RiskManager where
  limits := limits
  daily_pnl := 0
  weekly_pnl := 0
  current_date := none
  week_start_date := none
  peak_equity := 0
  current_drawdown_pct := 0
  trading_halted := false
  halt_reason := none

/-- RiskManager.reset_daily_pnl: zero the daily tracker when the calendar
date of the incoming timestamp differs from the stored one (or none stored). -/
def RiskManager.reset_daily_pnl (m : RiskManager) (current_date : ℤ) : RiskManager :=
  match m.current_date with
  | none => { m with daily_pnl := 0, current_date := some current_date }
  | some d =>
      if current_date ≠ d then
        { m with daily_pnl := 0, current_date := some current_date }
      else m

/-- RiskManager.reset_weekly_pnl: record the first observation, and zero the
weekly tracker once at least 7 days have elapsed since the stored week start. -/
def RiskManager.reset_weekly_pnl (m : RiskManager) (current_date : ℤ) : RiskManager :=
  match m.week_start_date with
  | none => { m with week_start_date := some current_date }
  | some w =>
      if current_date - w ≥ 7 then
        { m with weekly_pnl := 0, week_start_date := some current_date }
      else m

/-- RiskManager.update_pnl. -/
def RiskManager.update_pnl (m : RiskManager) (pnl : ℚ) (timestamp : ℤ) : RiskManager :=
  let m1 := (m.reset_daily_pnl timestamp).reset_weekly_pnl timestamp
  { m1 with daily_pnl := m1.daily_pnl + pnl, weekly_pnl := m1.weekly_pnl + pnl }

/-- RiskManager.update_drawdown.  The else branch divides by peak_equity,
which raises ZeroDivisionError in Python when the stored peak is 0 (its
initial value) and the incoming equity is not a new high; that execution is
the error case here. -/
def RiskManager.update_drawdown (m : RiskManager) (current_equity : ℚ) :
    Except Unit RiskManager :=
  if current_equity > m.peak_equity then
    .ok { m with peak_equity := current_equity, current_drawdown_pct := 0 }
  else if m.peak_equity = 0 then
    .error ()
  else
    .ok { m with current_drawdown_pct :=
            (m.peak_equity - current_equity) / m.peak_equity * 100 }

/-- RiskManager.check_daily_loss_limit: breach when the absolute value of the
accumulated daily P&L reaches the limit. -/
def RiskManager.check_daily_loss_limit (m : RiskManager) : Bool :=
  ratAbs m.daily_pnl ≥ m.limits.daily_loss_limit

/-- RiskManager.check_weekly_loss_limit. -/
def RiskManager.check_weekly_loss_limit (m : RiskManager) : Bool :=
  ratAbs m.weekly_pnl ≥ m.limits.weekly_loss_limit

/-- RiskManager.check_drawdown_limit. -/
def RiskManager.check_drawdown_limit (m : RiskManager) : Bool :=
  m.current_drawdown_pct ≥ m.limits.max_drawdown_pct

/-- RiskManager.check_position_limits, with the optional per-sector counts. -/
def RiskManager.check_position_limits (m : RiskManager) (current_positions : ℕ)
    (sector_positions : Option (List (String × ℕ))) : Bool :=
  if current_positions ≥ m.limits.max_positions then true
  else
    match sector_positions with
    | none => false
    | some secs => secs.any fun sc => sc.2 ≥ m.limits.max_sector_positions

/-- RiskManager.calculate_position_size: dollar cap is the smaller of the
fixed limit and the equity percentage; shares is Python int() of value/price;
bumped to 1 share when it is 0 and the account can afford one share. -/
def RiskManager.calculate_position_size (m : RiskManager)
    (account_equity stock_price : ℚ) : ℤ :=
  let max_by_percentage := account_equity * (m.limits.position_size_pct / 100)
  let position_value := ratMin m.limits.max_position_size max_by_percentage
  let shares := ratTrunc (position_value / stock_price)
  if shares = 0 ∧ account_equity ≥ stock_price then 1 else shares

/-- RiskManager.halt_trading. -/
def RiskManager.halt_trading (m : RiskManager) (reason : HaltReason) : RiskManager :=
  { m with trading_halted := true, halt_reason := some reason }

/-- RiskManager.resume_trading. -/
def RiskManager.resume_trading (m : RiskManager) : RiskManager :=
  { m with trading_halted := false, halt_reason := none }

/-- RiskManager.validate_trade: early return while halted; otherwise refresh
the daily/weekly trackers and the drawdown (which can raise), then run the
checks in source order, tripping the breaker on a daily-loss or drawdown
breach.  Returns the updated manager together with the (is_valid, reason)
pair the Python method returns. -/
def RiskManager.validate_trade (m : RiskManager) (_ticker : String) (price : ℚ)
    (quantity : ℤ) (account_equity : ℚ) (current_positions : ℕ)
    (timestamp : ℤ) : Except Unit (RiskManager × Bool × Option RejectReason) :=
  if m.trading_halted then
    .ok (m, false, some (.tradingHalted m.halt_reason))
  else
    let m1 := (m.reset_daily_pnl timestamp).reset_weekly_pnl timestamp
    match m1.update_drawdown account_equity with
    | .error e => .error e
    | .ok m2 =>
      if m2.check_daily_loss_limit then
        .ok (m2.halt_trading .dailyLossLimitExceeded, false, some .dailyLossExceeded)
      else if m2.check_weekly_loss_limit then
        .ok (m2, false, some .weeklyLossExceeded)
      else if m2.check_drawdown_limit then
        .ok (m2.halt_trading .maxDrawdownExceeded, false, some .maxDrawdownExceeded)
      else if m2.check_position_limits current_positions none then
        .ok (m2, false, some .positionLimitsExceeded)
      else if price * quantity > m2.limits.max_position_size then
        .ok (m2, false, some .positionSizeExceedsLimit)
      else if price * quantity > account_equity then
        .ok (m2, false, some .insufficientCapital)
      else
        .ok (m2, true, none)

/-- BacktestConfig dataclass (backtest_engine.py). -/
structure BacktestConfig where
  starting_capital : ℚ
  max_positions : ℕ
  max_position_size : ℚ
  commission_per_trade : ℚ
  slippage_pct : ℚ
  daily_loss_limit : ℚ
  max_drawdown_pct : ℚ
deriving DecidableEq

/-- The dataclass field defaults of BacktestConfig. -/
def defaultBacktestConfig : BacktestConfig where
  starting_capital := 10000
  max_positions := 5
  max_position_size := 1000
  commission_per_trade := 0
  slippage_pct := 0.05
  daily_loss_limit := 100
  max_drawdown_pct := 15

/-- Position dataclass.  Its __post_init__ replaces a 0.0 highest_price by the
entry price, so a freshly constructed position always carries
highest_price = entry_price; open_position constructs it that way below. -/
structure Position where
  ticker : String
  entry_time : ℤ
  entry_price : ℚ
  quantity : ℤ
  stop_loss : ℚ
  take_profit : ℚ
  highest_price : ℚ
deriving DecidableEq

/-- Trade dataclass. -/
structure Trade where
  ticker : String
  entry_time : ℤ
  exit_time : ℤ
  entry_price : ℚ
  exit_price : ℚ
  quantity : ℤ
  pnl : ℚ
  pnl_pct : ℚ
  exit_reason : String
  commission : ℚ
  slippage : ℚ
deriving DecidableEq

/-- One record of the equity curve (the dict appended by record_equity). -/
structure EquityPoint where
  timestamp : ℤ
  equity : ℚ
  capital : ℚ
  position_value : ℚ
  drawdown : ℚ
  num_positions : ℕ
deriving DecidableEq

/-- The state of a BacktestEngine object.  The Python dict of open positions
is modelled as an association list keyed by ticker, in insertion order. -/
structure BacktestEngine where
  config : BacktestConfig
  capital : ℚ
  starting_capital : ℚ
  positions : List (String × Position)
  trades : List Trade
  equity_curve : List EquityPoint
  daily_pnl : ℚ
  peak_equity : ℚ
  current_drawdown : ℚ
  total_trades : ℕ
  winning_trades : ℕ
  losing_trades : ℕ
deriving DecidableEq

/-- BacktestEngine.__init__. -/
def initBacktestEngine (config : BacktestConfig) : BacktestEngine where
  config := config
  capital := config.starting_capital
  starting_capital := config.starting_capital
  positions := []
  trades := []
  equity_curve := []
  daily_pnl := 0
  peak_equity := config.starting_capital
  current_drawdown := 0
  total_trades := 0
  winning_trades := 0
  losing_trades := 0

/-- BacktestEngine.can_open_position: room for another position, cash at
least the position-size cap, absolute daily P&L below the daily loss limit,
and drawdown below the maximum. -/
def BacktestEngine.can_open_position (s : BacktestEngine) : Bool :=
  if s.positions.length ≥ s.config.max_positions then false
  else if s.capital < s.config.max_position_size then false
  else if ratAbs s.daily_pnl ≥ s.config.daily_loss_limit then false
  else if s.current_drawdown ≥ s.config.max_drawdown_pct then false
  else true

/-- BacktestEngine.open_position: reject (unchanged state) on a duplicate
ticker, on can_open_position failing, or on the post-slippage total cost
exceeding cash; otherwise deduct the cost and store the new position. -/
def BacktestEngine.open_position (s : BacktestEngine) (ticker : String)
    (timestamp : ℤ) (price : ℚ) (quantity : ℤ) (stop_loss take_profit : ℚ) :
    Bool × BacktestEngine :=
  if (s.positions.lookup ticker).isSome then (false, s)
  else if ¬ s.can_open_position then (false, s)
  else
    let slippage := price * (s.config.slippage_pct / 100)
    let actual_entry_price := price + slippage
    let position_cost := actual_entry_price * quantity
    let total_cost := position_cost + s.config.commission_per_trade
    if total_cost > s.capital then (false, s)
    else
      let position : Position :=
        { ticker := ticker, entry_time := timestamp,
          entry_price := actual_entry_price, quantity := quantity,
          stop_loss := stop_loss, take_profit := take_profit,
          highest_price := actual_entry_price }
      (true, { s with capital := s.capital - total_cost,
                      positions := s.positions ++ [(ticker, position)] })

/-- BacktestEngine.close_position: none (unchanged state) when the ticker has
no open position; otherwise realize the post-slippage exit, credit the
proceeds, append the Trade, bump the counters (a strictly positive net P&L is
a win, anything else a loss), and drop the position. -/
def BacktestEngine.close_position (s : BacktestEngine) (ticker : String)
    (timestamp : ℤ) (price : ℚ) (reason : String) :
    Option Trade × BacktestEngine :=
  match s.positions.lookup ticker with
  | none => (none, s)
  | some position =>
    let slippage := price * (s.config.slippage_pct / 100)
    let actual_exit_price := price - slippage
    let gross_pnl := (actual_exit_price - position.entry_price) * position.quantity
    let net_pnl := gross_pnl - s.config.commission_per_trade
    let pnl_pct := (actual_exit_price - position.entry_price) / position.entry_price * 100
    let proceeds := actual_exit_price * position.quantity
    let trade : Trade :=
      { ticker := ticker, entry_time := position.entry_time,
        exit_time := timestamp, entry_price := position.entry_price,
        exit_price := actual_exit_price, quantity := position.quantity,
        pnl := net_pnl, pnl_pct := pnl_pct, exit_reason := reason,
        commission := s.config.commission_per_trade * 2,
        slippage := slippage * position.quantity * 2 }
    (some trade,
      { s with
        capital := s.capital + (proceeds - s.config.commission_per_trade),
        trades := s.trades ++ [trade],
        total_trades := s.total_trades + 1,
        daily_pnl := s.daily_pnl + net_pnl,
        winning_trades := if net_pnl > 0 then s.winning_trades + 1 else s.winning_trades,
        losing_trades := if net_pnl > 0 then s.losing_trades else s.losing_trades + 1,
        positions := s.positions.filter fun kv => kv.1 ≠ ticker })

/-- BacktestEngine.update_positions: for every open position whose ticker has
a current price, raise its highest-price-since-entry to that price if higher. -/
def BacktestEngine.update_positions (s : BacktestEngine)
    (current_prices : List (String × ℚ)) (_timestamp : ℤ) : BacktestEngine :=
  { s with positions := s.positions.map fun kv =>
      match current_prices.lookup kv.1 with
      | none => kv
      | some cp => (kv.1, { kv.2 with highest_price := max kv.2.highest_price cp }) }

/-- BacktestEngine.record_equity: mark open positions to market (tickers with
no current price contribute zero), update the peak/drawdown pair, and append
one equity point.  The drawdown division is total here; peak_equity starts at
the starting capital and never decreases, so the Python division is only
reached with a nonzero divisor whenever the starting capital is positive. -/
def BacktestEngine.record_equity (s : BacktestEngine) (timestamp : ℤ)
    (current_prices : List (String × ℚ)) : BacktestEngine :=
  let position_value := (s.positions.map fun kv =>
    match current_prices.lookup kv.1 with
    | none => 0
    | some cp => cp * kv.2.quantity).sum
  let total_equity := s.capital + position_value
  let s1 :=
    if total_equity > s.peak_equity then
      { s with peak_equity := total_equity, current_drawdown := 0 }
    else
      { s with current_drawdown := (s.peak_equity - total_equity) / s.peak_equity * 100 }
  { s1 with equity_curve := s1.equity_curve ++
      [{ timestamp := timestamp, equity := total_equity, capital := s1.capital,
         position_value := position_value, drawdown := s1.current_drawdown,
         num_positions := s1.positions.length }] }

/-- Exit reasons produced by TradingStrategy.check_exit_conditions, one
constructor per message pattern in the source. -/
inductive ExitReason where
  | stopLoss
  | takeProfit
  | timeStop
  | trailingStop
deriving DecidableEq

/-- The exit-side configuration of a TradingStrategy object
(strategy_engine.py __init__).  Timestamps reaching the strategy are
modelled by their US/Eastern minute-of-day, which is all that
_should_close_positions inspects; position_close_time is the hard-coded
time(15, 55), i.e. minute 955 of the day. -/
structure TradingStrategy where
  stop_loss_pct : ℚ
  take_profit_pct : ℚ
  trailing_stop_trigger_pct : ℚ
  trailing_stop_pct : ℚ
  position_close_time : ℚ
deriving DecidableEq

/-- TradingStrategy.__init__ with an empty config dict: every exit parameter
takes its config.get default. -/
def defaultTradingStrategy : TradingStrategy where
  stop_loss_pct := 1
  take_profit_pct := 1.5
  trailing_stop_trigger_pct := 1
  trailing_stop_pct := 0.5
  position_close_time := 955

/-- TradingStrategy._should_close_positions: the Eastern-Time minute of day
has reached the hard-coded close time. -/
def TradingStrategy.should_close_positions (st : TradingStrategy)
    (minuteOfDayET : ℚ) : Bool :=
  minuteOfDayET ≥ st.position_close_time

/-- TradingStrategy.check_exit_conditions: stop loss, then take profit, then
time stop, then the trailing stop (the latter only consulted when a highest
price was supplied and the unrealized gain strictly exceeds the trigger). -/
def TradingStrategy.check_exit_conditions (st : TradingStrategy)
    (entry_price current_price : ℚ) (minuteOfDayET : ℚ)
    (highest_price : Option ℚ) : Bool × Option ExitReason :=
  let pnl_pct := (current_price - entry_price) / entry_price * 100
  if pnl_pct ≤ -st.stop_loss_pct then (true, some .stopLoss)
  else if pnl_pct ≥ st.take_profit_pct then (true, some .takeProfit)
  else if st.should_close_positions minuteOfDayET then (true, some .timeStop)
  else
    match highest_price with
    | some hp =>
        if pnl_pct > st.trailing_stop_trigger_pct then
          let drawdown_from_high := (current_price - hp) / hp * 100
          if drawdown_from_high ≤ -st.trailing_stop_pct then
            (true, some .trailingStop)
          else (false, none)
        else (false, none)
    | none => (false, none)

/-- TradingStrategy.calculate_position_size: the dollar cap is the smaller of
the max_position_size argument and 20 percent of account value; the share
count is Python int() of value/price, then unconditionally floored to 1. -/
def TradingStrategy.calculate_position_size (_st : TradingStrategy)
    (account_value price : ℚ) (max_position_size : ℚ) : ℤ :=
  let position_value := ratMin max_position_size (account_value * 0.2)
  let shares := ratTrunc (position_value / price)
  max shares 1

/-- Keys of the dict returned by BacktestEngine.get_performance_metrics. -/
inductive MetricKey where
  | starting_capital
  | final_equity
  | total_return
  | total_return_pct
  | max_drawdown
  | total_trades
  | winning_trades
  | losing_trades
  | win_rate
  | profit_factor
  | avg_win
  | avg_loss
  | largest_win
  | largest_loss
  | sharpe_ratio
  | total_commission
  | total_slippage
deriving DecidableEq

/-- The maximum of a list of rationals with a default for the empty list
(pandas Series.max and Python max over a nonempty list). -/
def listMax (default : ℚ) : List ℚ → ℚ
  | [] => default
  | x :: xs => xs.foldl (fun a b => if a ≤ b then b else a) x

/-- Consecutive period-over-period percentage changes of a list
(pandas Series.pct_change with the leading NaN dropped, as the source's
mean and std skip it). -/
def pctChanges : List ℚ → List ℚ
  | [] => []
  | [_] => []
  | x :: y :: rest => (y - x) / x :: pctChanges (y :: rest)

/-- BacktestEngine.get_performance_metrics, as the association list of the
returned dict in source order.  With no trades it returns the four-key
placeholder of the source.  numpy and pandas square roots (np.sqrt(252) and
the sample standard deviation inside the Sharpe ratio) are irrational, so
sqrtFn abstracts the square-root function; no claim below depends on it. -/
def BacktestEngine.get_performance_metrics (s : BacktestEngine)
    (sqrtFn : ℚ → ℚ) : List (MetricKey × ℚ) :=
  match s.trades with
  | [] =>
      [(.total_return, 0), (.total_trades, 0), (.win_rate, 0), (.profit_factor, 0)]
  | _ :: _ =>
    let final_equity :=
      match s.equity_curve.getLast? with
      | some pt => pt.equity
      | none => s.starting_capital
    let total_return := (final_equity - s.starting_capital) / s.starting_capital * 100
    let winning_pnls := (s.trades.filter fun t => t.pnl > 0).map Trade.pnl
    let losing_pnls := (s.trades.filter fun t => t.pnl < 0).map fun t => ratAbs t.pnl
    let win_rate : ℚ :=
      if s.total_trades > 0 then (s.winning_trades : ℚ) / (s.total_trades : ℚ) * 100 else 0
    let total_wins := winning_pnls.sum
    let total_losses := losing_pnls.sum
    let profit_factor := if total_losses > 0 then total_wins / total_losses else 0
    let max_drawdown :=
      if s.equity_curve.length > 0 then listMax 0 (s.equity_curve.map EquityPoint.drawdown)
      else 0
    let sharpe_ratio : ℚ :=
      if s.equity_curve.length > 1 then
        let returns := pctChanges (s.equity_curve.map EquityPoint.equity)
        let n : ℚ := returns.length
        let mean := returns.sum / n
        let variance := (returns.map fun r => (r - mean) ^ 2).sum / (n - 1)
        let std := sqrtFn variance
        if std > 0 then mean / std * sqrtFn 252 else 0
      else 0
    [(.starting_capital, s.starting_capital),
     (.final_equity, final_equity),
     (.total_return, total_return),
     (.total_return_pct, total_return),
     (.max_drawdown, max_drawdown),
     (.total_trades, (s.total_trades : ℚ)),
     (.winning_trades, (s.winning_trades : ℚ)),
     (.losing_trades, (s.losing_trades : ℚ)),
     (.win_rate, win_rate),
     (.profit_factor, profit_factor),
     (.avg_win, if winning_pnls ≠ [] then winning_pnls.sum / (winning_pnls.length : ℚ) else 0),
     (.avg_loss, if losing_pnls ≠ [] then losing_pnls.sum / (losing_pnls.length : ℚ) else 0),
     (.largest_win, if winning_pnls ≠ [] then listMax 0 winning_pnls else 0),
     (.largest_loss, if losing_pnls ≠ [] then listMax 0 losing_pnls else 0),
     (.sharpe_ratio, sharpe_ratio),
     (.total_commission, (s.trades.map Trade.commission).sum),
     (.total_slippage, (s.trades.map Trade.slippage).sum)]

/-- The RiskManager method calls available to a driver, used to state
properties over arbitrary call sequences.  The validate constructor keeps
only the state effect of validate_trade. -/
inductive RiskOp where
  | updatePnl (pnl : ℚ) (timestamp : ℤ)
  | validate (ticker : String) (price : ℚ) (quantity : ℤ)
      (account_equity : ℚ) (current_positions : ℕ) (timestamp : ℤ)
  | resetDaily (timestamp : ℤ)
  | resetWeekly (timestamp : ℤ)
  | updateDrawdown (current_equity : ℚ)
  | halt (reason : HaltReason)
  | resume
deriving DecidableEq

/-- The state effect of one RiskManager call; a ZeroDivisionError inside
update_drawdown aborts the run. -/
def applyRiskOp (m : RiskManager) : RiskOp → Except Unit RiskManager
  | .updatePnl p t => .ok (m.update_pnl p t)
  | .validate tk pr q eq n t => (m.validate_trade tk pr q eq n t).map Prod.fst
  | .resetDaily t => .ok (m.reset_daily_pnl t)
  | .resetWeekly t => .ok (m.reset_weekly_pnl t)
  | .updateDrawdown eq => m.update_drawdown eq
  | .halt r => .ok (m.halt_trading r)
  | .resume => .ok m.resume_trading

/-- Run a sequence of RiskManager calls, stopping at the first exception. -/
def applyRiskOps (m : RiskManager) : List RiskOp → Except Unit RiskManager
  | [] => .ok m
  | op :: ops => (applyRiskOp m op).bind fun m1 => applyRiskOps m1 ops

/-- The BacktestEngine calls that touch no cash and close no position: the
per-step bookkeeping the driver runs between opening and closing a trade. -/
inductive EngineOp where
  | update (current_prices : List (String × ℚ)) (timestamp : ℤ)
  | record (timestamp : ℤ) (current_prices : List (String × ℚ))
deriving DecidableEq

/-- The state effect of one bookkeeping call. -/
def applyEngineOp (s : BacktestEngine) : EngineOp → BacktestEngine
  | .update prices t => s.update_positions prices t
  | .record t prices => s.record_equity t prices

/-- Run a sequence of bookkeeping calls. -/
def applyEngineOps (s : BacktestEngine) : List EngineOp → BacktestEngine
  | [] => s
  | op :: ops => applyEngineOps (applyEngineOp s op) ops

/-- Spec wording of validate_trade step 2: peak updates if equity is a new
high, else drawdown is recomputed against the running peak. -/
def updateDrawdownSpec (m : RiskManager) (equity : ℚ) : RiskManager :=
  if equity > m.peak_equity then
    { m with peak_equity := equity, current_drawdown_pct := 0 }
  else
    { m with current_drawdown_pct := (m.peak_equity - equity) / m.peak_equity * 100 }

/-- Spec wording of the validate_trade decision cascade, steps 3 to 8 of the
claim: daily loss, weekly loss, drawdown, position count, absolute position
size, sufficient capital; the first failing check names the reason and
passing all checks approves with no reason. -/
def validateChecksSpec (m : RiskManager) (price : ℚ) (quantity : ℤ)
    (account_equity : ℚ) (current_positions : ℕ) : Bool × Option RejectReason :=
  if ratAbs m.daily_pnl ≥ m.limits.daily_loss_limit then
    (false, some .dailyLossExceeded)
  else if ratAbs m.weekly_pnl ≥ m.limits.weekly_loss_limit then
    (false, some .weeklyLossExceeded)
  else if m.current_drawdown_pct ≥ m.limits.max_drawdown_pct then
    (false, some .maxDrawdownExceeded)
  else if current_positions ≥ m.limits.max_positions then
    (false, some .positionLimitsExceeded)
  else if price * quantity > m.limits.max_position_size then
    (false, some .positionSizeExceedsLimit)
  else if price * quantity > account_equity then
    (false, some .insufficientCapital)
  else (true, none)

/-- Spec wording of the circuit-breaker side effect of one validate_trade
call: a daily-loss breach trips the breaker, a weekly-loss breach rejects
without tripping it, and a drawdown breach reached past those trips it. -/
def tripSpec (m : RiskManager) : RiskManager :=
  if ratAbs m.daily_pnl ≥ m.limits.daily_loss_limit then
    m.halt_trading .dailyLossLimitExceeded
  else if ratAbs m.weekly_pnl ≥ m.limits.weekly_loss_limit then m
  else if m.current_drawdown_pct ≥ m.limits.max_drawdown_pct then
    m.halt_trading .maxDrawdownExceeded
  else m

/-- A RiskManager tripped by a daily-loss breach, used as a concrete state. -/
def haltedExample : RiskManager :=
  { initRiskManager defaultRiskLimits with
      trading_halted := true, halt_reason := some .dailyLossLimitExceeded }

/-- The entry price and quantity of a position, the fields close_position
settles against. -/
def posCore (p : Position) : ℚ × ℤ := (p.entry_price, p.quantity)

/-- The zero-slippage, zero-commission configuration used by the zero P&L
boundary scenario. -/
def zeroFrictionConfig : BacktestConfig :=
  { defaultBacktestConfig with slippage_pct := 0, commission_per_trade := 0 }

/-- A risk manager whose accumulated daily P&L is a profit of 150 against
the default daily loss limit of 100, with a positive stored peak. -/
def profitBreachedManager : RiskManager :=
  { initRiskManager defaultRiskLimits with
      daily_pnl := 150, current_date := some 0, peak_equity := 10000 }

theorem ratAbs_eq_abs (q : ℚ) : ratAbs q = |q| := by
  unfold ratAbs
  rcases lt_or_ge q 0 with h | h
  · simp [abs_of_neg h, h]
  · simp [abs_of_nonneg h, not_lt.mpr h]

theorem ratMin_eq_min (a b : ℚ) : ratMin a b = min a b := by
  unfold ratMin
  rcases le_total a b with h | h
  · simp [min_eq_left h, h]
  · rcases eq_or_lt_of_le h with h' | h'
    · simp [h']
    · simp [min_eq_right h, not_le.mpr h']

theorem reset_daily_pnl_peak (m : RiskManager) (t : ℤ) :
    (m.reset_daily_pnl t).peak_equity = m.peak_equity := by
  unfold RiskManager.reset_daily_pnl
  cases m.current_date <;> simp only [] <;> split <;> rfl

theorem reset_weekly_pnl_peak (m : RiskManager) (t : ℤ) :
    (m.reset_weekly_pnl t).peak_equity = m.peak_equity := by
  unfold RiskManager.reset_weekly_pnl
  cases m.week_start_date <;> simp only [] <;> split <;> rfl

/-- C1 counterexample.  The claim says validate_trade returns a result pair
for every input, including account equity at most 0 on the first call when
the stored peak equity is still its initial value 0.  On a freshly
initialized RiskManager with default limits, validate_trade with equity 0
reaches the drawdown recomputation with a zero peak and raises
ZeroDivisionError (the error case of the embedding) instead of returning. -/
theorem validate_trade_raises_on_first_nonpositive_equity :
    (initRiskManager defaultRiskLimits).validate_trade "AAPL" 150 6 0 0 0 =
      .error () := by
  norm_num [RiskManager.validate_trade, initRiskManager, defaultRiskLimits,
    RiskManager.reset_daily_pnl, RiskManager.reset_weekly_pnl,
    RiskManager.update_drawdown]

/-- C1 amended.  validate_trade returns a (bool, reason) pair and never
raises whenever trading is halted, or the account equity is positive, or the
stored peak equity is positive; the only raising executions are first calls
(peak still at its initial value 0) with nonpositive equity while trading is
not halted. -/
theorem validate_trade_no_raise (m : RiskManager) (tk : String) (price : ℚ)
    (quantity : ℤ) (account_equity : ℚ) (current_positions : ℕ) (timestamp : ℤ)
    (h : m.trading_halted = true ∨ 0 < account_equity ∨ 0 < m.peak_equity) :
    (m.validate_trade tk price quantity account_equity current_positions
      timestamp).isOk = true := by
  unfold RiskManager.validate_trade
  cases hht : m.trading_halted
  · simp only [hht, Bool.false_eq_true, if_false]
    have hpeak : ((m.reset_daily_pnl timestamp).reset_weekly_pnl
        timestamp).peak_equity = m.peak_equity := by
      rw [reset_weekly_pnl_peak, reset_daily_pnl_peak]
    rcases hdd : ((m.reset_daily_pnl timestamp).reset_weekly_pnl
        timestamp).update_drawdown account_equity with e | m2
    · exfalso
      unfold RiskManager.update_drawdown at hdd
      rw [hpeak] at hdd
      rcases h with h | h | h
      · rw [hht] at h; exact Bool.false_ne_true h
      · split_ifs at hdd with h1 h2
        have : account_equity ≤ m.peak_equity := not_lt.mp h1
        rw [h2] at this
        exact absurd h (not_lt.mpr this)
      · split_ifs at hdd with h1 h2
        exact absurd h2 (ne_of_gt h)
    · simp only []
      split_ifs <;> simp [Except.isOk, Except.toBool]
  · simp [hht, Except.isOk, Except.toBool]

/-- C1 witness: a concrete non-raising call through the amended theorem. -/
theorem validate_trade_no_raise_witness :
    ((initRiskManager defaultRiskLimits).validate_trade
      "AAPL" 150 6 10000 0 0).isOk = true :=
  validate_trade_no_raise (initRiskManager defaultRiskLimits)
    "AAPL" 150 6 10000 0 0 (Or.inr (Or.inl (by norm_num)))

theorem reset_daily_pnl_halted (m : RiskManager) (t : ℤ) :
    (m.reset_daily_pnl t).trading_halted = m.trading_halted := by
  unfold RiskManager.reset_daily_pnl
  cases m.current_date <;> simp only [] <;> split <;> rfl

theorem reset_weekly_pnl_halted (m : RiskManager) (t : ℤ) :
    (m.reset_weekly_pnl t).trading_halted = m.trading_halted := by
  unfold RiskManager.reset_weekly_pnl
  cases m.week_start_date <;> simp only [] <;> split <;> rfl

theorem update_pnl_halted (m : RiskManager) (p : ℚ) (t : ℤ) :
    (m.update_pnl p t).trading_halted = m.trading_halted := by
  have h : (m.update_pnl p t).trading_halted =
      ((m.reset_daily_pnl t).reset_weekly_pnl t).trading_halted := rfl
  rw [h, reset_weekly_pnl_halted, reset_daily_pnl_halted]

theorem update_drawdown_halted (m : RiskManager) (eq : ℚ) (m' : RiskManager)
    (h : m.update_drawdown eq = .ok m') :
    m'.trading_halted = m.trading_halted := by
  unfold RiskManager.update_drawdown at h
  split_ifs at h <;> simp only [Except.ok.injEq] at h <;> subst h <;> rfl

theorem validate_trade_on_halted (m : RiskManager) (tk : String) (price : ℚ)
    (quantity : ℤ) (account_equity : ℚ) (current_positions : ℕ) (timestamp : ℤ)
    (h : m.trading_halted = true) :
    m.validate_trade tk price quantity account_equity current_positions timestamp =
      .ok (m, false, some (.tradingHalted m.halt_reason)) := by
  unfold RiskManager.validate_trade
  simp [h]

theorem applyRiskOp_preserves_halted (m m' : RiskManager) (op : RiskOp)
    (hH : m.trading_halted = true) (hnr : op ≠ RiskOp.resume)
    (h : applyRiskOp m op = .ok m') : m'.trading_halted = true := by
  cases op with
  | updatePnl p t =>
      simp only [applyRiskOp, Except.ok.injEq] at h
      rw [← h, update_pnl_halted]; exact hH
  | validate tk pr q eq n t =>
      rw [applyRiskOp, validate_trade_on_halted m tk pr q eq n t hH] at h
      simp only [Except.map, Except.ok.injEq] at h
      rw [← h]; exact hH
  | resetDaily t =>
      simp only [applyRiskOp, Except.ok.injEq] at h
      rw [← h, reset_daily_pnl_halted]; exact hH
  | resetWeekly t =>
      simp only [applyRiskOp, Except.ok.injEq] at h
      rw [← h, reset_weekly_pnl_halted]; exact hH
  | updateDrawdown eq =>
      simp only [applyRiskOp] at h
      rw [update_drawdown_halted m eq m' h]; exact hH
  | halt r =>
      simp only [applyRiskOp, Except.ok.injEq] at h
      rw [← h]; rfl
  | resume => exact absurd rfl hnr

theorem applyRiskOps_preserves_halted (ops : List RiskOp) :
    ∀ m m' : RiskManager, m.trading_halted = true →
    (∀ o ∈ ops, o ≠ RiskOp.resume) → applyRiskOps m ops = .ok m' →
    m'.trading_halted = true := by
  induction ops with
  | nil =>
      intro m m' hH _ h
      simp only [applyRiskOps, Except.ok.injEq] at h
      rw [← h]; exact hH
  | cons op ops ih =>
      intro m m' hH hnr h
      simp only [applyRiskOps] at h
      rcases hop : applyRiskOp m op with e | m1
      · rw [hop] at h; exact absurd h (by simp [Except.bind])
      · rw [hop] at h
        simp only [Except.bind] at h
        exact ih m1 m'
          (applyRiskOp_preserves_halted m m1 op hH (hnr op (by simp)) hop)
          (fun o ho => hnr o (by simp [ho])) h

/-- C2.  Once the breaker has tripped, a halted RiskManager stays halted
across every sequence of calls that contains no resume_trading, every
validate_trade call on the resulting state rejects immediately with the
stored halt reason and leaves the state untouched (so no further checks or
tracker updates run), and an explicit resume_trading clears the halt. -/
theorem circuit_breaker_latches (m : RiskManager) (ops : List RiskOp)
    (m' : RiskManager) (hH : m.trading_halted = true)
    (hnr : ∀ o ∈ ops, o ≠ RiskOp.resume)
    (hrun : applyRiskOps m ops = .ok m') :
    m'.trading_halted = true ∧
    (∀ (tk : String) (price : ℚ) (quantity : ℤ) (account_equity : ℚ)
        (current_positions : ℕ) (timestamp : ℤ),
      m'.validate_trade tk price quantity account_equity current_positions
          timestamp =
        .ok (m', false, some (.tradingHalted m'.halt_reason))) ∧
    m'.resume_trading.trading_halted = false := by
  have h1 : m'.trading_halted = true :=
    applyRiskOps_preserves_halted ops m m' hH hnr hrun
  exact ⟨h1, fun tk pr q eq n t => validate_trade_on_halted m' tk pr q eq n t h1, rfl⟩

/-- C2 witness: a concrete halted manager, a later profitable update_pnl, and
a subsequent rejected validate_trade, through the theorem. -/
theorem circuit_breaker_latches_witness :
    (haltedExample.update_pnl 500 0).trading_halted = true ∧
    (haltedExample.update_pnl 500 0).validate_trade "MSFT" 300 3 10000 2 0 =
      .ok (haltedExample.update_pnl 500 0, false,
        some (.tradingHalted ((haltedExample.update_pnl 500 0).halt_reason))) := by
  have hrun : applyRiskOps haltedExample [RiskOp.updatePnl 500 0] =
      .ok (haltedExample.update_pnl 500 0) := by
    simp [applyRiskOps, applyRiskOp, Except.bind]
  have h := circuit_breaker_latches haltedExample [RiskOp.updatePnl 500 0]
    (haltedExample.update_pnl 500 0) rfl (by simp) hrun
  exact ⟨h.1, h.2.1 "MSFT" 300 3 10000 2 0⟩

theorem check_position_limits_none (m : RiskManager) (n : ℕ) :
    m.check_position_limits n none =
      decide (n ≥ m.limits.max_positions) := by
  unfold RiskManager.check_position_limits
  split_ifs with h
  · simp [h]
  · simp [h]

theorem update_drawdown_ok (m : RiskManager) (eq : ℚ)
    (h : 0 < eq ∨ 0 < m.peak_equity) :
    m.update_drawdown eq = .ok (updateDrawdownSpec m eq) := by
  unfold RiskManager.update_drawdown updateDrawdownSpec
  split_ifs with h1 h2
  · rfl
  · exfalso
    rcases h with h | h
    · have : eq ≤ m.peak_equity := not_lt.mp h1
      rw [h2] at this
      exact absurd h (not_lt.mpr this)
    · exact absurd h2 (ne_of_gt h)
  · rfl

/-- C3.  With the breaker not tripped (and on a raise-free execution, i.e.
positive equity or positive stored peak), validate_trade first refreshes the
trackers and drawdown, then decides exactly as the spec-ordered cascade
validateChecksSpec (daily loss, weekly loss, drawdown, position count,
absolute position size, sufficient capital; first failure names the reason,
passing all checks approves with no reason), and its circuit-breaker side
effect is exactly tripSpec (daily-loss and drawdown breaches trip, a weekly
breach rejects without tripping). -/
theorem validate_trade_check_order (m : RiskManager) (tk : String)
    (price : ℚ) (quantity : ℤ) (account_equity : ℚ) (current_positions : ℕ)
    (timestamp : ℤ) (hH : m.trading_halted = false)
    (hdz : 0 < account_equity ∨ 0 < m.peak_equity) :
    let m2 := updateDrawdownSpec
      ((m.reset_daily_pnl timestamp).reset_weekly_pnl timestamp) account_equity
    m.validate_trade tk price quantity account_equity current_positions
        timestamp =
      .ok (tripSpec m2,
           validateChecksSpec m2 price quantity account_equity current_positions) := by
  intro m2
  have hpeak : ((m.reset_daily_pnl timestamp).reset_weekly_pnl
      timestamp).peak_equity = m.peak_equity := by
    rw [reset_weekly_pnl_peak, reset_daily_pnl_peak]
  have hdz' : 0 < account_equity ∨
      0 < ((m.reset_daily_pnl timestamp).reset_weekly_pnl timestamp).peak_equity := by
    rw [hpeak]; exact hdz
  unfold RiskManager.validate_trade
  rw [hH]
  simp only [Bool.false_eq_true, if_false]
  rw [update_drawdown_ok _ _ hdz']
  simp only [validateChecksSpec, tripSpec, RiskManager.check_daily_loss_limit,
    RiskManager.check_weekly_loss_limit, RiskManager.check_drawdown_limit,
    check_position_limits_none, decide_eq_true_eq]
  split_ifs <;> rfl

/-- C3 witness: a concrete approved trade through the theorem. -/
theorem validate_trade_check_order_witness :
    (initRiskManager defaultRiskLimits).validate_trade "AAPL" 150 6 10000 2 0 =
      .ok (tripSpec (updateDrawdownSpec
             (((initRiskManager defaultRiskLimits).reset_daily_pnl 0).reset_weekly_pnl 0)
             10000),
           validateChecksSpec (updateDrawdownSpec
             (((initRiskManager defaultRiskLimits).reset_daily_pnl 0).reset_weekly_pnl 0)
             10000) 150 6 10000 2) :=
  validate_trade_check_order (initRiskManager defaultRiskLimits)
    "AAPL" 150 6 10000 2 0 rfl (Or.inl (by norm_num))

theorem open_position_dup (s : BacktestEngine) (ticker : String) (timestamp : ℤ)
    (price : ℚ) (quantity : ℤ) (stop_loss take_profit : ℚ)
    (h : (s.positions.lookup ticker).isSome = true) :
    s.open_position ticker timestamp price quantity stop_loss take_profit =
      (false, s) := by
  unfold BacktestEngine.open_position
  rw [h]
  rfl

theorem open_position_cannot (s : BacktestEngine) (ticker : String) (timestamp : ℤ)
    (price : ℚ) (quantity : ℤ) (stop_loss take_profit : ℚ)
    (h : s.can_open_position = false) :
    s.open_position ticker timestamp price quantity stop_loss take_profit =
      (false, s) := by
  by_cases hl : (s.positions.lookup ticker).isSome = true
  · exact open_position_dup s ticker timestamp price quantity stop_loss take_profit hl
  · unfold BacktestEngine.open_position
    rw [if_neg hl, if_pos (by simp [h])]

theorem open_position_insufficient (s : BacktestEngine) (ticker : String)
    (timestamp : ℤ) (price : ℚ) (quantity : ℤ) (stop_loss take_profit : ℚ)
    (h : (price + price * (s.config.slippage_pct / 100)) * quantity +
        s.config.commission_per_trade > s.capital) :
    s.open_position ticker timestamp price quantity stop_loss take_profit =
      (false, s) := by
  by_cases hl : (s.positions.lookup ticker).isSome = true
  · exact open_position_dup s ticker timestamp price quantity stop_loss take_profit hl
  · by_cases hc : s.can_open_position = true
    · unfold BacktestEngine.open_position
      rw [if_neg hl, if_neg (by simp [hc])]
      simp only []
      rw [if_pos h]
    · exact open_position_cannot s ticker timestamp price quantity stop_loss
        take_profit (by revert hc; cases s.can_open_position <;> simp)

theorem open_position_success (s : BacktestEngine) (ticker : String)
    (timestamp : ℤ) (price : ℚ) (quantity : ℤ) (stop_loss take_profit : ℚ)
    (h1 : s.positions.lookup ticker = none) (h2 : s.can_open_position = true)
    (h3 : (price + price * (s.config.slippage_pct / 100)) * quantity +
        s.config.commission_per_trade ≤ s.capital) :
    s.open_position ticker timestamp price quantity stop_loss take_profit =
      (true, { s with
        capital := s.capital -
          (price * (1 + s.config.slippage_pct / 100) * quantity +
            s.config.commission_per_trade),
        positions := s.positions ++ [(ticker,
          { ticker := ticker, entry_time := timestamp,
            entry_price := price * (1 + s.config.slippage_pct / 100),
            quantity := quantity, stop_loss := stop_loss,
            take_profit := take_profit,
            highest_price := price * (1 + s.config.slippage_pct / 100) })] }) := by
  have hfill : price * (1 + s.config.slippage_pct / 100) =
      price + price * (s.config.slippage_pct / 100) := by ring
  rw [hfill]
  unfold BacktestEngine.open_position
  rw [if_neg (by rw [h1]; simp), if_neg (by simp [h2])]
  simp only []
  rw [if_neg (not_lt.mpr h3)]

/-- C4.  open_position is atomic: it returns false and the entire engine
state unchanged when the ticker already has a position, can_open_position is
false, or the post-slippage total cost exceeds cash; otherwise it returns
true, appends exactly one position filled at price times
(1 + slippage_pct/100), and deducts exactly fill price times quantity plus
the commission from cash.  In particular, on the default configuration
(capital 10000, slippage 0.05 percent, commission 0), opening 6 shares at
150 fills at 150.075 and leaves cash 9099.55. -/
theorem open_position_atomicity (s : BacktestEngine) (ticker : String)
    (timestamp : ℤ) (price : ℚ) (quantity : ℤ) (stop_loss take_profit : ℚ) :
    (((s.positions.lookup ticker).isSome = true ∨ s.can_open_position = false ∨
        (price + price * (s.config.slippage_pct / 100)) * quantity +
          s.config.commission_per_trade > s.capital) →
      s.open_position ticker timestamp price quantity stop_loss take_profit =
        (false, s)) ∧
    (s.positions.lookup ticker = none → s.can_open_position = true →
      (price + price * (s.config.slippage_pct / 100)) * quantity +
          s.config.commission_per_trade ≤ s.capital →
      s.open_position ticker timestamp price quantity stop_loss take_profit =
        (true, { s with
          capital := s.capital -
            (price * (1 + s.config.slippage_pct / 100) * quantity +
              s.config.commission_per_trade),
          positions := s.positions ++ [(ticker,
            { ticker := ticker, entry_time := timestamp,
              entry_price := price * (1 + s.config.slippage_pct / 100),
              quantity := quantity, stop_loss := stop_loss,
              take_profit := take_profit,
              highest_price := price * (1 + s.config.slippage_pct / 100) })] })) ∧
    (((initBacktestEngine defaultBacktestConfig).open_position
        "AAPL" 0 150 6 148.5 152.25).1 = true ∧
      ((initBacktestEngine defaultBacktestConfig).open_position
        "AAPL" 0 150 6 148.5 152.25).2.capital = 9099.55 ∧
      (((initBacktestEngine defaultBacktestConfig).open_position
        "AAPL" 0 150 6 148.5 152.25).2.positions.lookup "AAPL").map
          Position.entry_price = some 150.075) := by
  refine ⟨?_, ?_, ?_⟩
  · rintro (h | h | h)
    · exact open_position_dup s ticker timestamp price quantity stop_loss take_profit h
    · exact open_position_cannot s ticker timestamp price quantity stop_loss take_profit h
    · exact open_position_insufficient s ticker timestamp price quantity stop_loss take_profit h
  · intro h1 h2 h3
    exact open_position_success s ticker timestamp price quantity stop_loss take_profit h1 h2 h3
  · have h := open_position_success (initBacktestEngine defaultBacktestConfig)
      "AAPL" 0 150 6 148.5 152.25 rfl
      (by norm_num [BacktestEngine.can_open_position, initBacktestEngine,
        defaultBacktestConfig, ratAbs])
      (by norm_num [initBacktestEngine, defaultBacktestConfig])
    rw [h]
    refine ⟨rfl, by norm_num [initBacktestEngine, defaultBacktestConfig], ?_⟩
    norm_num [initBacktestEngine, defaultBacktestConfig, List.lookup]

/-- C4 witness: with zero starting capital can_open_position is false and a
concrete open_position call is rejected with the state unchanged. -/
theorem open_position_atomicity_witness :
    (initBacktestEngine { defaultBacktestConfig with starting_capital := 0
      }).open_position "AAPL" 0 150 6 148.5 152.25 =
      (false, initBacktestEngine { defaultBacktestConfig with
        starting_capital := 0 }) :=
  (open_position_atomicity _ "AAPL" 0 150 6 148.5 152.25).1
    (Or.inr (Or.inl (by
      norm_num [BacktestEngine.can_open_position, initBacktestEngine,
        defaultBacktestConfig, ratAbs])))

theorem risk_calc_position_size_eq (m : RiskManager)
    (account_equity stock_price : ℚ) (h0 : 0 ≤ account_equity)
    (hp : 0 < stock_price) (hmp : 0 < m.limits.max_position_size)
    (hpct : m.limits.position_size_pct = 20) :
    m.calculate_position_size account_equity stock_price =
      if stock_price ≤ account_equity then
        max ⌊min m.limits.max_position_size (account_equity * 0.2) / stock_price⌋ 1
      else
        ⌊min m.limits.max_position_size (account_equity * 0.2) / stock_price⌋ := by
  unfold RiskManager.calculate_position_size
  simp only [hpct]
  have h20 : account_equity * ((20 : ℚ) / 100) = account_equity * 0.2 := by norm_num
  rw [h20]
  have hvmin : ratMin m.limits.max_position_size (account_equity * 0.2) =
      min m.limits.max_position_size (account_equity * 0.2) := ratMin_eq_min _ _
  have hv0 : 0 ≤ min m.limits.max_position_size (account_equity * 0.2) :=
    le_min hmp.le (by positivity)
  have hq0 : 0 ≤ min m.limits.max_position_size (account_equity * 0.2) / stock_price :=
    div_nonneg hv0 hp.le
  have htr : ratTrunc (ratMin m.limits.max_position_size (account_equity * 0.2) /
      stock_price) =
      ⌊min m.limits.max_position_size (account_equity * 0.2) / stock_price⌋ := by
    rw [hvmin]
    unfold ratTrunc
    rw [if_pos hq0]
  rw [htr]
  by_cases hpe : stock_price ≤ account_equity
  · rw [if_pos hpe]
    by_cases hz : ⌊min m.limits.max_position_size (account_equity * 0.2) /
        stock_price⌋ = 0
    · rw [if_pos ⟨hz, hpe⟩, hz]
      rfl
    · have hnn : 0 ≤ ⌊min m.limits.max_position_size (account_equity * 0.2) /
          stock_price⌋ := Int.floor_nonneg.mpr hq0
      have h1 : 1 ≤ ⌊min m.limits.max_position_size (account_equity * 0.2) /
          stock_price⌋ := by omega
      rw [if_neg (by intro hand; exact hz hand.1), max_eq_left h1]
  · rw [if_neg hpe, if_neg (by intro hand; exact hpe hand.2)]

/-- C5 counterexample.  The claim says the sizing result stays 0 when the
price exceeds the account equity and the floor is 0.  The Signal Generator
sizing function (TradingStrategy.calculate_position_size) returns 1 share for
account value 100 and price 200, although the claimed formula floors to 0 and
the price exceeds the equity. -/
theorem strategy_position_size_not_zero_counterexample :
    defaultTradingStrategy.calculate_position_size 100 200 1000 = 1 ∧
    ⌊min (1000 : ℚ) ((100 : ℚ) * 0.2) / 200⌋ = 0 ∧ (100 : ℚ) < 200 := by
  refine ⟨?_, ?_, by norm_num⟩
  · norm_num [TradingStrategy.calculate_position_size, ratMin, ratTrunc]
  · rw [show min (1000 : ℚ) ((100 : ℚ) * 0.2) = 20 by norm_num]
    rw [show (20 : ℚ) / 200 = 0.1 by norm_num]
    rw [Int.floor_eq_zero_iff]
    constructor <;> norm_num

/-- C5 amended.  The Risk Gate sizing function
(RiskManager.calculate_position_size, with the default 20 percent equity
share) returns floor(min(max_position_size, equity times 0.2) / price),
floored to a minimum of 1 share exactly when price is at most equity; the
Signal Generator sizing function (TradingStrategy.calculate_position_size)
instead always floors the share count to a minimum of 1, even when the price
exceeds the account value. -/
theorem position_sizing_amended :
    (∀ (m : RiskManager) (account_equity stock_price : ℚ),
      0 ≤ account_equity → 0 < stock_price → 0 < m.limits.max_position_size →
      m.limits.position_size_pct = 20 →
      m.calculate_position_size account_equity stock_price =
        if stock_price ≤ account_equity then
          max ⌊min m.limits.max_position_size (account_equity * 0.2) / stock_price⌋ 1
        else
          ⌊min m.limits.max_position_size (account_equity * 0.2) / stock_price⌋) ∧
    (∀ (st : TradingStrategy) (account_value price max_position_size : ℚ),
      1 ≤ st.calculate_position_size account_value price max_position_size) := by
  constructor
  · intro m eq p h0 hp hmp hpct
    exact risk_calc_position_size_eq m eq p h0 hp hmp hpct
  · intro st av p mps
    unfold TradingStrategy.calculate_position_size
    exact le_max_right _ 1

/-- C5 witness: the amended statement applied to concrete inputs on both
implementations. -/
theorem position_sizing_amended_witness :
    (initRiskManager defaultRiskLimits).calculate_position_size 10000 150 =
      (if (150 : ℚ) ≤ 10000 then
        max ⌊min (1000 : ℚ) ((10000 : ℚ) * 0.2) / 150⌋ 1
      else ⌊min (1000 : ℚ) ((10000 : ℚ) * 0.2) / 150⌋) ∧
    1 ≤ defaultTradingStrategy.calculate_position_size 100 200 1000 :=
  ⟨position_sizing_amended.1 (initRiskManager defaultRiskLimits) 10000 150
      (by norm_num) (by norm_num) (by norm_num [initRiskManager, defaultRiskLimits])
      (by norm_num [initRiskManager, defaultRiskLimits]),
   position_sizing_amended.2 defaultTradingStrategy 100 200 1000⟩

/-- C6.  check_exit_conditions evaluates exits in fixed priority order with
the first match winning and no combination: stop loss at profit-and-loss
percent at most minus stop_loss_pct (inclusive), then take profit at that
percent at least take_profit_pct (inclusive), then the time stop once the
Eastern-Time minute of day reaches position_close_time, then the trailing
stop, which is only consulted when a highest price is supplied and the
unrealized gain strictly exceeds the trigger percent, and fires when the
fall from the highest price is at most minus trailing_stop_pct; with no
match, no exit is signalled.  The entry price 150 and current price 148.5
boundary (exactly minus 1 percent) triggers the stop loss.  The hypotheses
restrict to positive entry and highest prices, where the total rational
division of the embedding agrees with Python. -/
theorem check_exit_conditions_priority (st : TradingStrategy)
    (entry_price current_price minuteOfDayET : ℚ) (highest_price : Option ℚ)
    (he : 0 < entry_price) (hh : ∀ hp, highest_price = some hp → 0 < hp) :
    (st.check_exit_conditions entry_price current_price minuteOfDayET highest_price =
        (true, some .stopLoss) ↔
      (current_price - entry_price) / entry_price * 100 ≤ -st.stop_loss_pct) ∧
    (st.check_exit_conditions entry_price current_price minuteOfDayET highest_price =
        (true, some .takeProfit) ↔
      ¬((current_price - entry_price) / entry_price * 100 ≤ -st.stop_loss_pct) ∧
      (current_price - entry_price) / entry_price * 100 ≥ st.take_profit_pct) ∧
    (st.check_exit_conditions entry_price current_price minuteOfDayET highest_price =
        (true, some .timeStop) ↔
      ¬((current_price - entry_price) / entry_price * 100 ≤ -st.stop_loss_pct) ∧
      ¬((current_price - entry_price) / entry_price * 100 ≥ st.take_profit_pct) ∧
      minuteOfDayET ≥ st.position_close_time) ∧
    (st.check_exit_conditions entry_price current_price minuteOfDayET highest_price =
        (true, some .trailingStop) ↔
      ¬((current_price - entry_price) / entry_price * 100 ≤ -st.stop_loss_pct) ∧
      ¬((current_price - entry_price) / entry_price * 100 ≥ st.take_profit_pct) ∧
      ¬(minuteOfDayET ≥ st.position_close_time) ∧
      ∃ hp, highest_price = some hp ∧
        (current_price - entry_price) / entry_price * 100 >
          st.trailing_stop_trigger_pct ∧
        (current_price - hp) / hp * 100 ≤ -st.trailing_stop_pct) ∧
    (st.check_exit_conditions entry_price current_price minuteOfDayET highest_price =
        (false, none) ↔
      ¬((current_price - entry_price) / entry_price * 100 ≤ -st.stop_loss_pct) ∧
      ¬((current_price - entry_price) / entry_price * 100 ≥ st.take_profit_pct) ∧
      ¬(minuteOfDayET ≥ st.position_close_time) ∧
      ∀ hp, highest_price = some hp →
        ¬((current_price - entry_price) / entry_price * 100 >
            st.trailing_stop_trigger_pct ∧
          (current_price - hp) / hp * 100 ≤ -st.trailing_stop_pct)) ∧
    defaultTradingStrategy.check_exit_conditions 150 148.5 600 none =
      (true, some .stopLoss) := by
  have hB : defaultTradingStrategy.check_exit_conditions 150 148.5 600 none =
      (true, some .stopLoss) := by
    norm_num [TradingStrategy.check_exit_conditions,
      TradingStrategy.should_close_positions, defaultTradingStrategy]
  have hiff : ∀ tod, (st.should_close_positions tod = true) ↔
      st.position_close_time ≤ tod := by
    intro tod
    simp [TradingStrategy.should_close_positions, ge_iff_le]
  by_cases h1 : (current_price - entry_price) / entry_price * 100 ≤ -st.stop_loss_pct
  · have hres : st.check_exit_conditions entry_price current_price minuteOfDayET
        highest_price = (true, some .stopLoss) := by
      simp only [TradingStrategy.check_exit_conditions]
      rw [if_pos h1]
    refine ⟨?_, ?_, ?_, ?_, ?_, hB⟩ <;> rw [hres] <;>
      simp [h1, ge_iff_le, gt_iff_lt]
  · by_cases h2 : st.take_profit_pct ≤ (current_price - entry_price) / entry_price * 100
    · have hres : st.check_exit_conditions entry_price current_price minuteOfDayET
          highest_price = (true, some .takeProfit) := by
        simp only [TradingStrategy.check_exit_conditions]
        rw [if_neg h1, if_pos h2]
      refine ⟨?_, ?_, ?_, ?_, ?_, hB⟩ <;> rw [hres] <;>
        simp [h1, h2, ge_iff_le, gt_iff_lt]
    · by_cases h3 : st.should_close_positions minuteOfDayET = true
      · have h3' := (hiff minuteOfDayET).mp h3
        have hres : st.check_exit_conditions entry_price current_price minuteOfDayET
            highest_price = (true, some .timeStop) := by
          simp only [TradingStrategy.check_exit_conditions]
          rw [if_neg h1, if_neg h2, if_pos h3]
        refine ⟨?_, ?_, ?_, ?_, ?_, hB⟩ <;> rw [hres] <;>
          simp [h1, h2, h3', ge_iff_le, gt_iff_lt]
      · have h3' : ¬ st.position_close_time ≤ minuteOfDayET :=
          fun hc => h3 ((hiff minuteOfDayET).mpr hc)
        cases highest_price with
        | none =>
            have hres : st.check_exit_conditions entry_price current_price
                minuteOfDayET none = (false, none) := by
              simp only [TradingStrategy.check_exit_conditions]
              rw [if_neg h1, if_neg h2, if_neg h3]
            refine ⟨?_, ?_, ?_, ?_, ?_, hB⟩ <;> rw [hres] <;>
              simp [h1, h2, h3', ge_iff_le, gt_iff_lt]
        | some hp =>
            by_cases h4 : st.trailing_stop_trigger_pct <
              (current_price - entry_price) / entry_price * 100
            · by_cases h5 : (current_price - hp) / hp * 100 ≤ -st.trailing_stop_pct
              · have hres : st.check_exit_conditions entry_price current_price
                    minuteOfDayET (some hp) = (true, some .trailingStop) := by
                  simp only [TradingStrategy.check_exit_conditions]
                  rw [if_neg h1, if_neg h2, if_neg h3]
                  rw [if_pos h4, if_pos h5]
                refine ⟨?_, ?_, ?_, ?_, ?_, hB⟩ <;> rw [hres] <;>
                  simp [h1, h2, h3', h4, h5, ge_iff_le, gt_iff_lt]
              · have hres : st.check_exit_conditions entry_price current_price
                    minuteOfDayET (some hp) = (false, none) := by
                  simp only [TradingStrategy.check_exit_conditions]
                  rw [if_neg h1, if_neg h2, if_neg h3]
                  rw [if_pos h4, if_neg h5]
                refine ⟨?_, ?_, ?_, ?_, ?_, hB⟩ <;> rw [hres] <;>
                  simp [h1, h2, h3', h4, h5, not_le.mp h5, ge_iff_le, gt_iff_lt]
            · have hres : st.check_exit_conditions entry_price current_price
                  minuteOfDayET (some hp) = (false, none) := by
                simp only [TradingStrategy.check_exit_conditions]
                rw [if_neg h1, if_neg h2, if_neg h3]
                rw [if_neg h4]
              refine ⟨?_, ?_, ?_, ?_, ?_, hB⟩ <;> rw [hres] <;>
                simp [h1, h2, h3', h4, not_lt.mp h4, ge_iff_le, gt_iff_lt]

/-- C6 witness: the boundary scenario extracted through the theorem. -/
theorem check_exit_conditions_priority_witness :
    defaultTradingStrategy.check_exit_conditions 150 148.5 600 none =
      (true, some .stopLoss) :=
  (check_exit_conditions_priority defaultTradingStrategy 150 148.5 600 none
    (by norm_num) (by simp)).2.2.2.2.2

theorem lookup_cons (k : String) (v : Position) (t : List (String × Position))
    (tk : String) :
    ((k, v) :: t).lookup tk = if tk == k then some v else t.lookup tk := by
  by_cases h : tk == k <;> simp [List.lookup, h]

theorem lookup_map_keyed (l : List (String × Position))
    (f : String → Position → Position) (tk : String) :
    ((l.map fun kv => (kv.1, f kv.1 kv.2)).lookup tk) =
      (l.lookup tk).map (f tk) := by
  induction l with
  | nil => rfl
  | cons kv t ih =>
      rcases kv with ⟨k, v⟩
      rw [List.map_cons, lookup_cons, lookup_cons]
      by_cases hk : (tk == k) = true
      · rw [if_pos hk, if_pos hk]
        have he := beq_iff_eq.mp hk
        subst he
        rfl
      · rw [if_neg hk, if_neg hk]
        exact ih

theorem lookup_append_right (l1 l2 : List (String × Position)) (tk : String)
    (h : l1.lookup tk = none) : (l1 ++ l2).lookup tk = l2.lookup tk := by
  induction l1 with
  | nil => rfl
  | cons kv t ih =>
      rcases kv with ⟨k, v⟩
      rw [lookup_cons] at h
      by_cases hk : (tk == k) = true
      · rw [if_pos hk] at h
        exact (Option.some_ne_none v h).elim
      · rw [if_neg hk] at h
        rw [List.cons_append, lookup_cons, if_neg hk]
        exact ih h

theorem applyEngineOp_capital (s : BacktestEngine) (op : EngineOp) :
    (applyEngineOp s op).capital = s.capital := by
  cases op with
  | update prices t => rfl
  | record t prices =>
      show (s.record_equity t prices).capital = s.capital
      unfold BacktestEngine.record_equity
      simp only []
      split <;> rfl

theorem applyEngineOp_config (s : BacktestEngine) (op : EngineOp) :
    (applyEngineOp s op).config = s.config := by
  cases op with
  | update prices t => rfl
  | record t prices =>
      show (s.record_equity t prices).config = s.config
      unfold BacktestEngine.record_equity
      simp only []
      split <;> rfl

theorem applyEngineOp_lookup (s : BacktestEngine) (op : EngineOp) (tk : String) :
    ((applyEngineOp s op).positions.lookup tk).map posCore =
      (s.positions.lookup tk).map posCore := by
  cases op with
  | update prices t =>
      have hfun : (fun kv : String × Position =>
          match prices.lookup kv.1 with
          | none => kv
          | some cp => (kv.1, { kv.2 with highest_price := max kv.2.highest_price cp })) =
        (fun kv : String × Position => (kv.1,
          (fun k p => match prices.lookup k with
            | none => p
            | some cp => { p with highest_price := max p.highest_price cp }) kv.1 kv.2)) := by
        funext kv
        rcases kv with ⟨k, p⟩
        simp only []
        cases h : prices.lookup k <;> simp [h]
      show (((s.positions.map fun kv =>
          match prices.lookup kv.1 with
          | none => kv
          | some cp => (kv.1, { kv.2 with
              highest_price := max kv.2.highest_price cp })).lookup tk)).map
        posCore = _
      rw [hfun, lookup_map_keyed s.positions
        (fun k p => match prices.lookup k with
          | none => p
          | some cp => { p with highest_price := max p.highest_price cp }) tk]
      cases s.positions.lookup tk with
      | none => rfl
      | some p =>
          cases prices.lookup tk <;> rfl
  | record t prices =>
      show ((s.record_equity t prices).positions.lookup tk).map posCore = _
      unfold BacktestEngine.record_equity
      simp only []
      split <;> rfl

theorem applyEngineOps_capital (ops : List EngineOp) :
    ∀ s : BacktestEngine, (applyEngineOps s ops).capital = s.capital := by
  induction ops with
  | nil => intro s; rfl
  | cons op t ih =>
      intro s
      show (applyEngineOps (applyEngineOp s op) t).capital = s.capital
      rw [ih, applyEngineOp_capital]

theorem applyEngineOps_config (ops : List EngineOp) :
    ∀ s : BacktestEngine, (applyEngineOps s ops).config = s.config := by
  induction ops with
  | nil => intro s; rfl
  | cons op t ih =>
      intro s
      show (applyEngineOps (applyEngineOp s op) t).config = s.config
      rw [ih, applyEngineOp_config]

theorem applyEngineOps_lookup (ops : List EngineOp) :
    ∀ (s : BacktestEngine) (tk : String),
      ((applyEngineOps s ops).positions.lookup tk).map posCore =
        (s.positions.lookup tk).map posCore := by
  induction ops with
  | nil => intro s tk; rfl
  | cons op t ih =>
      intro s tk
      show (((applyEngineOps (applyEngineOp s op) t).positions.lookup tk)).map
        posCore = _
      rw [ih, applyEngineOp_lookup]

theorem close_position_found (s : BacktestEngine) (tk : String) (t : ℤ)
    (price : ℚ) (reason : String) (pos : Position)
    (h : s.positions.lookup tk = some pos) :
    (s.close_position tk t price reason).1.isSome = true ∧
    (s.close_position tk t price reason).2.capital =
      s.capital + ((price - price * (s.config.slippage_pct / 100)) *
        pos.quantity - s.config.commission_per_trade) := by
  unfold BacktestEngine.close_position
  rw [h]
  exact ⟨rfl, rfl⟩

/-- C7 amended.  Cash conservation over a round trip holds with intervening
update_positions and record_equity calls on any tickers (the bookkeeping
operations, which move no cash); it fails with intervening open or close
calls on other tickers, which do move cash (see the counterexample).  For
every successful open_position followed, after any sequence of bookkeeping
operations, by close_position on the same ticker, the final cash equals the
cash before the open minus the entry cost (entry fill price times quantity
plus commission) plus the exit proceeds (exit fill price times quantity
minus commission).  The positive-peak hypothesis keeps record_equity off the
zero-divisor branch Python would fault on. -/
theorem round_trip_cash_conservation (s : BacktestEngine) (ticker : String)
    (t1 : ℤ) (price1 : ℚ) (quantity : ℤ) (stop_loss take_profit : ℚ)
    (s1 : BacktestEngine) (ops : List EngineOp) (t2 : ℤ) (price2 : ℚ)
    (reason : String)
    (hopen : s.open_position ticker t1 price1 quantity stop_loss take_profit =
      (true, s1))
    (hpeak : 0 < s.peak_equity) :
    ((applyEngineOps s1 ops).close_position ticker t2 price2 reason).1.isSome =
      true ∧
    ((applyEngineOps s1 ops).close_position ticker t2 price2 reason).2.capital =
      s.capital - (price1 * (1 + s.config.slippage_pct / 100) * quantity +
        s.config.commission_per_trade) +
      (price2 * (1 - s.config.slippage_pct / 100) * quantity -
        s.config.commission_per_trade) := by
  unfold BacktestEngine.open_position at hopen
  by_cases hdup : (s.positions.lookup ticker).isSome = true
  · rw [if_pos hdup] at hopen
    exact absurd (congrArg Prod.fst hopen) (by simp)
  rw [if_neg hdup] at hopen
  by_cases hcan : s.can_open_position = true
  · rw [if_neg (by simp [hcan])] at hopen
    simp only [] at hopen
    by_cases hcost : (price1 + price1 * (s.config.slippage_pct / 100)) *
        quantity + s.config.commission_per_trade > s.capital
    · rw [if_pos hcost] at hopen
      exact absurd (congrArg Prod.fst hopen) (by simp)
    · rw [if_neg hcost] at hopen
      have hs1 := congrArg Prod.snd hopen
      simp only [] at hs1
      have hnone : s.positions.lookup ticker = none :=
        Option.not_isSome_iff_eq_none.mp (by simpa using hdup)
      have hlook1 : s1.positions.lookup ticker = some
          { ticker := ticker, entry_time := t1,
            entry_price := price1 + price1 * (s.config.slippage_pct / 100),
            quantity := quantity, stop_loss := stop_loss,
            take_profit := take_profit,
            highest_price := price1 + price1 * (s.config.slippage_pct / 100) } := by
        rw [← hs1]
        show (s.positions ++ [(ticker, _)]).lookup ticker = _
        rw [lookup_append_right s.positions _ ticker hnone, lookup_cons,
          if_pos (beq_self_eq_true ticker)]
      have hcap1 : s1.capital = s.capital -
          ((price1 + price1 * (s.config.slippage_pct / 100)) * quantity +
            s.config.commission_per_trade) := by
        rw [← hs1]
      have hcfg1 : s1.config = s.config := by
        rw [← hs1]
      have hcap2 : (applyEngineOps s1 ops).capital = s1.capital :=
        applyEngineOps_capital ops s1
      have hcfg2 : (applyEngineOps s1 ops).config = s1.config :=
        applyEngineOps_config ops s1
      have hcore : ((applyEngineOps s1 ops).positions.lookup ticker).map posCore =
          (s1.positions.lookup ticker).map posCore :=
        applyEngineOps_lookup ops s1 ticker
      rw [hlook1] at hcore
      cases hl2 : (applyEngineOps s1 ops).positions.lookup ticker with
      | none =>
          rw [hl2] at hcore
          exact absurd hcore (by simp)
      | some pos2 =>
          rw [hl2] at hcore
          simp only [Option.map_some', Option.some.injEq] at hcore
          have hq : pos2.quantity = quantity := congrArg Prod.snd hcore
          have hclose := close_position_found (applyEngineOps s1 ops) ticker t2
            price2 reason pos2 hl2
          refine ⟨hclose.1, ?_⟩
          rw [hclose.2, hcap2, hcap1, hcfg2, hcfg1, hq]
          ring
  · rw [if_pos (by simp [hcan])] at hopen
    exact absurd (congrArg Prod.fst hopen) (by simp)

/-- C7 counterexample.  With the default configuration, open AAPL (6 shares
at 150, cash falls to 9099.55), then an intervening operation on another
ticker: open MSFT (6 shares at 150, cash falls to 8199.10), then close AAPL
at 150 (exit fill 149.925, proceeds 899.55, cash 9098.65).  The claimed
equation cash_before_open minus entry cost plus exit proceeds gives
10000 - 900.45 + 899.55 = 9999.10, which the actual final cash does not
equal: intervening cash-moving operations on other tickers break the claim
as stated. -/
theorem round_trip_conservation_counterexample :
    ((initBacktestEngine defaultBacktestConfig).open_position
      "AAPL" 0 150 6 148.5 152.25).1 = true ∧
    (((initBacktestEngine defaultBacktestConfig).open_position
      "AAPL" 0 150 6 148.5 152.25).2.open_position
      "MSFT" 0 150 6 148.5 152.25).1 = true ∧
    (((((initBacktestEngine defaultBacktestConfig).open_position
      "AAPL" 0 150 6 148.5 152.25).2.open_position
      "MSFT" 0 150 6 148.5 152.25).2.close_position
      "AAPL" 1 150 "TimeStop").1).isSome = true ∧
    ((((initBacktestEngine defaultBacktestConfig).open_position
      "AAPL" 0 150 6 148.5 152.25).2.open_position
      "MSFT" 0 150 6 148.5 152.25).2.close_position
      "AAPL" 1 150 "TimeStop").2.capital ≠
      10000 - (150 * (1 + 0.05 / 100) * 6 + 0) +
        (150 * (1 - 0.05 / 100) * 6 - 0) := by
  refine ⟨?_, ?_, ?_, ?_⟩ <;>
    norm_num [BacktestEngine.open_position, BacktestEngine.close_position,
      BacktestEngine.can_open_position, initBacktestEngine,
      defaultBacktestConfig, ratAbs, List.lookup, List.filter,
      show ("MSFT" == "AAPL") = false from rfl,
      show ("AAPL" == "MSFT") = false from rfl,
      show ("AAPL" == "AAPL") = true from rfl,
      show ("MSFT" == "MSFT") = true from rfl]

/-- C7 witness: a concrete round trip with an intervening bookkeeping
update_positions call, through the theorem. -/
theorem round_trip_cash_conservation_witness :
    ((applyEngineOps ((initBacktestEngine defaultBacktestConfig).open_position
        "AAPL" 0 150 6 148.5 152.25).2
        [EngineOp.update [("AAPL", 152.5)] 0]).close_position
        "AAPL" 1 152.5 "TakeProfit").1.isSome = true ∧
    ((applyEngineOps ((initBacktestEngine defaultBacktestConfig).open_position
        "AAPL" 0 150 6 148.5 152.25).2
        [EngineOp.update [("AAPL", 152.5)] 0]).close_position
        "AAPL" 1 152.5 "TakeProfit").2.capital =
      10000 - (150 * (1 + 0.05 / 100) * 6 + 0) +
        (152.5 * (1 - 0.05 / 100) * 6 - 0) := by
  have hopen : (initBacktestEngine defaultBacktestConfig).open_position
      "AAPL" 0 150 6 148.5 152.25 =
      (true, ((initBacktestEngine defaultBacktestConfig).open_position
        "AAPL" 0 150 6 148.5 152.25).2) := by
    have hfst : ((initBacktestEngine defaultBacktestConfig).open_position
        "AAPL" 0 150 6 148.5 152.25).1 = true := by
      norm_num [BacktestEngine.open_position, BacktestEngine.can_open_position,
        initBacktestEngine, defaultBacktestConfig, ratAbs, List.lookup]
    exact Prod.ext hfst rfl
  have h := round_trip_cash_conservation (initBacktestEngine defaultBacktestConfig)
    "AAPL" 0 150 6 148.5 152.25
    ((initBacktestEngine defaultBacktestConfig).open_position
      "AAPL" 0 150 6 148.5 152.25).2
    [EngineOp.update [("AAPL", 152.5)] 0] 1 152.5 "TakeProfit" hopen
    (by norm_num [initBacktestEngine, defaultBacktestConfig])
  refine ⟨h.1, ?_⟩
  rw [h.2]
  norm_num [initBacktestEngine, defaultBacktestConfig]

/-- C8.  On every close_position that finds a position, the win/loss
counters update on the sign of the realized net P&L
(exit fill minus entry, times quantity, minus commission): winning_trades
increments exactly when it is strictly positive, otherwise losing_trades
increments — so a net P&L of exactly zero counts as a loss.  The closed
conjunct runs the zero-slippage, zero-commission round trip at equal prices
and shows the trade lands in losing_trades. -/
theorem close_position_win_loss (s : BacktestEngine) (tk : String) (t : ℤ)
    (price : ℚ) (reason : String) (pos : Position)
    (h : s.positions.lookup tk = some pos) :
    ((price - price * (s.config.slippage_pct / 100) - pos.entry_price) *
        pos.quantity - s.config.commission_per_trade > 0 →
      (s.close_position tk t price reason).2.winning_trades =
          s.winning_trades + 1 ∧
        (s.close_position tk t price reason).2.losing_trades =
          s.losing_trades) ∧
    (¬((price - price * (s.config.slippage_pct / 100) - pos.entry_price) *
        pos.quantity - s.config.commission_per_trade > 0) →
      (s.close_position tk t price reason).2.losing_trades =
          s.losing_trades + 1 ∧
        (s.close_position tk t price reason).2.winning_trades =
          s.winning_trades) ∧
    ((((initBacktestEngine zeroFrictionConfig).open_position
        "A" 0 100 1 99 101).2.close_position "A" 1 100 "Exit").2.losing_trades = 1 ∧
      (((initBacktestEngine zeroFrictionConfig).open_position
        "A" 0 100 1 99 101).2.close_position "A" 1 100 "Exit").2.winning_trades = 0) := by
  refine ⟨?_, ?_, ?_⟩
  · intro hpos
    unfold BacktestEngine.close_position
    rw [h]
    simp only []
    rw [if_pos hpos, if_pos hpos]
    exact ⟨rfl, rfl⟩
  · intro hneg
    unfold BacktestEngine.close_position
    rw [h]
    simp only []
    rw [if_neg hneg, if_neg hneg]
    exact ⟨rfl, rfl⟩
  · constructor <;>
      norm_num [BacktestEngine.open_position, BacktestEngine.close_position,
        BacktestEngine.can_open_position, initBacktestEngine,
        defaultBacktestConfig, zeroFrictionConfig, ratAbs, List.lookup, List.filter,
        show ("A" == "A") = true from rfl]

/-- C8 witness: the loss branch of the theorem applied on a concrete state
holding one position opened at entry price 100 with the zero-friction
configuration, closed at the same price. -/
theorem close_position_win_loss_witness :
    ((((initBacktestEngine zeroFrictionConfig).open_position
        "A" 0 100 1 99 101).2).close_position "A" 1 100 "Exit").2.losing_trades =
      (((initBacktestEngine zeroFrictionConfig).open_position
        "A" 0 100 1 99 101).2).losing_trades + 1 := by
  have hlook : (((initBacktestEngine { defaultBacktestConfig with
      slippage_pct := 0, commission_per_trade := 0 }).open_position
        "A" 0 100 1 99 101).2).positions.lookup "A" = some
      { ticker := "A", entry_time := 0, entry_price := 100, quantity := 1,
        stop_loss := 99, take_profit := 101, highest_price := 100 } := by
    norm_num [BacktestEngine.open_position, BacktestEngine.can_open_position,
      initBacktestEngine, defaultBacktestConfig, zeroFrictionConfig, ratAbs, List.lookup,
      show ("A" == "A") = true from rfl]
  exact ((close_position_win_loss _ "A" 1 100 "Exit" _ hlook).2.1
    (by norm_num [BacktestEngine.open_position, BacktestEngine.can_open_position,
      initBacktestEngine, defaultBacktestConfig, zeroFrictionConfig, ratAbs, List.lookup])).1

/-- C9 counterexample.  The claim says the no-trades summary contains every
field of the documented schema; on a fresh engine (no trades) the returned
dict has no starting_capital key at all. -/
theorem empty_metrics_missing_field_counterexample :
    ((initBacktestEngine defaultBacktestConfig).get_performance_metrics
      id).lookup MetricKey.starting_capital = none := by
  rfl

/-- C9 amended.  When the trade list is empty, get_performance_metrics
returns the zeroed placeholder containing only the four keys total_return,
total_trades, win_rate and profit_factor, not the full documented summary
schema. -/
theorem empty_metrics_placeholder (sqrtFn : ℚ → ℚ) (s : BacktestEngine)
    (h : s.trades = []) :
    s.get_performance_metrics sqrtFn =
      [(.total_return, 0), (.total_trades, 0), (.win_rate, 0),
       (.profit_factor, 0)] := by
  unfold BacktestEngine.get_performance_metrics
  rw [h]

/-- C9 witness: the placeholder equality on a fresh engine. -/
theorem empty_metrics_placeholder_witness :
    (initBacktestEngine defaultBacktestConfig).get_performance_metrics id =
      [(.total_return, 0), (.total_trades, 0), (.win_rate, 0),
       (.profit_factor, 0)] :=
  empty_metrics_placeholder id (initBacktestEngine defaultBacktestConfig) rfl

theorem reset_daily_pnl_same_date (m : RiskManager) (t : ℤ)
    (h : m.current_date = some t) : m.reset_daily_pnl t = m := by
  unfold RiskManager.reset_daily_pnl
  rw [h]
  simp

theorem reset_weekly_pnl_daily (m : RiskManager) (t : ℤ) :
    (m.reset_weekly_pnl t).daily_pnl = m.daily_pnl := by
  unfold RiskManager.reset_weekly_pnl
  cases m.week_start_date <;> simp only [] <;> split <;> rfl

theorem reset_weekly_pnl_limits (m : RiskManager) (t : ℤ) :
    (m.reset_weekly_pnl t).limits = m.limits := by
  unfold RiskManager.reset_weekly_pnl
  cases m.week_start_date <;> simp only [] <;> split <;> rfl

theorem updateDrawdownSpec_daily (m : RiskManager) (eq : ℚ) :
    (updateDrawdownSpec m eq).daily_pnl = m.daily_pnl := by
  unfold updateDrawdownSpec
  split <;> rfl

theorem updateDrawdownSpec_limits (m : RiskManager) (eq : ℚ) :
    (updateDrawdownSpec m eq).limits = m.limits := by
  unfold updateDrawdownSpec
  split <;> rfl

/-- C10.  The daily-limit comparison uses the absolute value of the
accumulated daily P&L: whenever its magnitude reaches the daily loss limit
(a large enough profit exactly as a loss, the hypothesis is on the absolute
value), a validate_trade call on the same stored calendar date rejects with
the daily-loss reason and trips the circuit breaker, and can_open_position
in the backtest engine returns false under the same absolute-value
condition. -/
theorem daily_limit_uses_absolute_pnl (m : RiskManager) (tk : String)
    (price : ℚ) (quantity : ℤ) (account_equity : ℚ) (current_positions : ℕ)
    (timestamp : ℤ) (hH : m.trading_halted = false)
    (hdate : m.current_date = some timestamp)
    (habs : m.limits.daily_loss_limit ≤ ratAbs m.daily_pnl)
    (hdz : 0 < account_equity ∨ 0 < m.peak_equity) :
    (∃ m', m.validate_trade tk price quantity account_equity
        current_positions timestamp =
        .ok (m', false, some .dailyLossExceeded) ∧
      m'.trading_halted = true) ∧
    (∀ s : BacktestEngine, s.config.daily_loss_limit ≤ ratAbs s.daily_pnl →
      s.can_open_position = false) := by
  constructor
  · have hdz' : 0 < account_equity ∨
        0 < ((m.reset_daily_pnl timestamp).reset_weekly_pnl
          timestamp).peak_equity := by
      rw [reset_weekly_pnl_peak, reset_daily_pnl_peak]
      exact hdz
    have hdaily : ((updateDrawdownSpec ((m.reset_daily_pnl
        timestamp).reset_weekly_pnl timestamp) account_equity)).daily_pnl =
        m.daily_pnl := by
      rw [updateDrawdownSpec_daily, reset_weekly_pnl_daily,
        reset_daily_pnl_same_date m timestamp hdate]
    have hlim : ((updateDrawdownSpec ((m.reset_daily_pnl
        timestamp).reset_weekly_pnl timestamp) account_equity)).limits =
        m.limits := by
      rw [updateDrawdownSpec_limits, reset_weekly_pnl_limits,
        reset_daily_pnl_same_date m timestamp hdate]
    refine ⟨(updateDrawdownSpec ((m.reset_daily_pnl
        timestamp).reset_weekly_pnl timestamp)
        account_equity).halt_trading .dailyLossLimitExceeded, ?_, rfl⟩
    unfold RiskManager.validate_trade
    rw [hH]
    simp only [Bool.false_eq_true, if_false]
    rw [update_drawdown_ok _ _ hdz']
    simp only []
    rw [if_pos (by
      unfold RiskManager.check_daily_loss_limit
      rw [hdaily, hlim]
      simpa using habs)]
  · intro s hs
    unfold BacktestEngine.can_open_position
    split_ifs with h1 h2 <;> rfl

/-- C10 witness: the theorem applied to a concrete profitable breach and a
concrete engine state. -/
theorem daily_limit_uses_absolute_pnl_witness :
    (∃ m', profitBreachedManager.validate_trade "AAPL" 150 6 10000 0 0 =
        .ok (m', false, some .dailyLossExceeded) ∧
      m'.trading_halted = true) ∧
    ({ initBacktestEngine defaultBacktestConfig with daily_pnl := 150
      } : BacktestEngine).can_open_position = false := by
  have h := daily_limit_uses_absolute_pnl profitBreachedManager
    "AAPL" 150 6 10000 0 0 rfl rfl
    (by norm_num [profitBreachedManager, initRiskManager, defaultRiskLimits,
      ratAbs])
    (Or.inl (by norm_num))
  exact ⟨h.1, h.2 _ (by norm_num [initBacktestEngine, defaultBacktestConfig,
    ratAbs])⟩
